import Mathlib

/-!
Verification development for the `storyboard` repository (metadata.py and
src/storyboard/storyboard.py). Python floats are modelled as rationals (all
arithmetic the claims touch is exact on the inputs involved), Python ints as
`Nat`/`Int`, fallible code as `Except`/`Option`.
-/

namespace Storyboard

/-! ### RatioMath: `_evaluate_ratio` from metadata.py

The regular expressions `^([1-9][0-9]*):([1-9][0-9]*)$` and
`^([1-9][0-9]*)/([1-9][0-9]*)$` are modelled by splitting the character list
at the separator: the whole string matches the regex iff the separator occurs
exactly once and both sides are nonempty digit strings with a nonzero leading
digit. -/

/-- Character-list split at every occurrence of `c`, mirroring how the anchored
regex decomposes the candidate string. -/
def splitOnCharAux (c : Char) : List Char → List Char → List (List Char)
  | [], acc => [acc.reverse]
  | x :: xs, acc =>
    if x = c then acc.reverse :: splitOnCharAux c xs []
    else splitOnCharAux c xs (x :: acc)

/-- Split a character list on a separator character. -/
def splitOnChar (c : Char) (l : List Char) : List (List Char) :=
  splitOnCharAux c l []

/-- Test for `[1-9][0-9]*`: a positive decimal integer with no leading zero,
as required by both regexes in metadata.py. -/
def posIntChars : List Char → Bool
  | [] => false
  | c :: cs => ('1' ≤ c && c ≤ '9') && cs.all fun d => '0' ≤ d && d ≤ '9'

/-- Decimal value of a digit string (model of Python `int(...)` on the
regex capture groups). -/
def natOfChars (l : List Char) : Nat :=
  l.foldl (fun n c => 10 * n + (c.toNat - '0'.toNat)) 0

/-- Evaluation of one of the two regex alternatives: succeed iff the separator
occurs exactly once with `[1-9][0-9]*` on both sides, returning
numerator / denominator. -/
def evaluateRatioChars (sep : Char) (l : List Char) : Option ℚ :=
  match splitOnChar sep l with
  | [a, b] =>
    if posIntChars a && posIntChars b then
      some ((natOfChars a : ℚ) / (natOfChars b : ℚ))
    else none
  | _ => none

/-- Model of `_evaluate_ratio` (metadata.py lines 29-52): try the colon form
first, then the slash form, returning the ratio as a number, or `none` when
malformed. -/
def evaluate_ratio_str (s : String) : Option ℚ :=
  match evaluateRatioChars ':' s.data with
  | some q => some q
  | none => evaluateRatioChars '/' s.data

/-! ### Formatting helpers -/

/-- Model of Python `int()` applied to a float: truncation toward zero. -/
def pyInt (q : ℚ) : ℤ := if 0 ≤ q then ⌊q⌋ else ⌈q⌉

/-- Two-digit zero padding for a decimal fraction part. -/
def pad2 (n : Nat) : String := if n < 10 then "0" ++ toString n else toString n

/-- Model of C-style `"%.2f"` on a nonnegative value: render the nearest
multiple of 1/100 with exactly two fractional digits. -/
def fmt_fixed2 (q : ℚ) : String :=
  toString (round (q * 100) / 100) ++ "." ++ pad2 (round (q * 100) % 100).toNat

/-- Model of C-style `"%.1f"` on a nonnegative value: render the nearest
multiple of 1/10 with exactly one fractional digit. -/
def fmt_fixed1 (q : ℚ) : String :=
  toString (round (q * 10) / 10) ++ "." ++ toString (round (q * 10) % 10).toNat

/-- Frame-rate display string from `Video._process_stream`
(metadata.py lines 358-363): `'%d fps' % int(fps)` when
`abs(fps - int(fps)) < 0.0001`, else `"%.2f fps" % fps`. Note the source
truncates with `int(fps)`; it does not round to the nearest integer. -/
def frame_rate_text_of (fps : ℚ) : String :=
  if |fps - (pyInt fps : ℚ)| < 1 / 10000 then
    toString (pyInt fps) ++ " fps"
  else
    fmt_fixed2 fps ++ " fps"

/-- Model of `_round_up` (metadata.py lines 17-27): ceiling-round a
nonnegative number upward to `ndigits` decimal digits. -/
def round_up (number : ℚ) (ndigits : Nat) : ℚ :=
  let multiplier : ℚ := 10 ^ ndigits
  ⌈number * multiplier⌉ / multiplier

/-! ### `Video._extract_size` (metadata.py lines 192-213) -/

/-- Unit prefixes iterated by the size loop, in source order. -/
def size_units : List String := ["Ki", "Mi", "Gi", "Ti", "Pi", "Ei", "Zi"]

/-- Model of the `for unit in [...]` loop with its `else` clause: divide by
1024, stop at the first unit where the quotient drops below 1024 (two decimals
if the magnitude is below 10, else one decimal); if the units are exhausted,
format with one decimal in the last unit reached. -/
def size_human_loop (size : ℚ) : List String → String
  | [] => ""
  | unit :: rest =>
    let size' := size / 1024
    if size' < 1024 then
      if size' < 10 then fmt_fixed2 (round_up size' 2) ++ unit ++ "B"
      else fmt_fixed1 (round_up size' 1) ++ unit ++ "B"
    else
      match rest with
      | [] => fmt_fixed1 (round_up size' 1) ++ unit ++ "B"
      | _ :: _ => size_human_loop size' rest

/-- Model of `Video._extract_size`: the human-readable size string for a byte
count (`"%dB" % size` below 1024, otherwise the unit loop). -/
def size_human (size : Nat) : String :=
  if (size : ℚ) < 1024 then toString size ++ "B"
  else size_human_loop (size : ℚ) size_units

/-! ### Stream records (`Video._process_stream`, metadata.py lines 280-472)

A raw FFprobe stream dictionary is modelled with the keys the dimension, DAR
and frame-rate logic reads. The `dar_str` field models the
`display_aspect_ratio` key (the Lean name differs from the source only because
of a lexical restriction on identifier endings). `width`/`height` are read
unconditionally in the video branch of the source (required keys there), so
they are plain numbers, meaningful only when `codec_type` is `"video"`. -/

structure RawStream where
  index : Nat
  codec_type : Option String := none
  width : Nat := 0
  height : Nat := 0
  /-- the `display_aspect_ratio` key -/
  dar_str : Option String := none
  r_frame_rate : Option String := none
  avg_frame_rate : Option String := none
deriving Repr, DecidableEq

/-- Model of the `Stream` container class of metadata.py, restricted to the
general and video-specific attributes the dimension / DAR / frame-rate logic
assigns (all attributes start out as `None`). -/
structure StreamRecord where
  index : Nat
  type : Option String := none
  width : Option Nat := none
  height : Option Nat := none
  dimension : Option (Nat × Nat) := none
  dimension_text : Option String := none
  frame_rate : Option ℚ := none
  frame_rate_text : Option String := none
  dar : Option ℚ := none
  dar_text : Option String := none
deriving Repr, DecidableEq

/-- Container-level fields of the `Video` object that `_process_stream`
aggregates from the streams; all are initialized to `None` in
`Video.__init__` before `_extract_streams` runs. -/
structure VideoAgg where
  dimension : Option (Nat × Nat) := none
  dimension_text : Option String := none
  dar : Option ℚ := none
  dar_text : Option String := none
  frame_rate : Option ℚ := none
  frame_rate_text : Option String := none
deriving Repr, DecidableEq

/-- DAR value and text of a video stream (metadata.py lines 334-344): when the
`display_aspect_ratio` key is present, parse it (keeping the text only when
the parse succeeds, with no computed fallback); when it is absent, reduce
width:height by their gcd and render the reduced pair as `"%d:%d"`. -/
def stream_dar_pair (stream : RawStream) : Option ℚ × Option String :=
  match stream.dar_str with
  | some rstr =>
    (evaluate_ratio_str rstr,
     if (evaluate_ratio_str rstr).isSome then some rstr else none)
  | none =>
    let g := Nat.gcd stream.width stream.height
    let reduced_width := stream.width / g
    let reduced_height := stream.height / g
    (some ((reduced_width : ℚ) / (reduced_height : ℚ)),
     some (toString reduced_width ++ ":" ++ toString reduced_height))

/-- Frame-rate value of a video stream (metadata.py lines 350-356): parse
`r_frame_rate` when that key is present (with no fallback on a failed parse),
else parse `avg_frame_rate` when present, else absent. -/
def stream_frame_rate (stream : RawStream) : Option ℚ :=
  match stream.r_frame_rate with
  | some r => evaluate_ratio_str r
  | none =>
    match stream.avg_frame_rate with
    | some a => evaluate_ratio_str a
    | none => none

/-- Construction of the per-stream record in `Video._process_stream`. The
stream object `s` is computed purely from the raw stream (the assignments to
`self` are factored out into `step_agg` below, which is sound because nothing
in the construction of `s` reads `self`). Mirrors the source branches:

* no `codec_type` key: `s.type = 'unknown'`;
* video: dimension from the required `width`/`height` keys; DAR from parsing
  the `display_aspect_ratio` key when present (text kept only when the parse
  succeeds), otherwise computed by reducing width:height by their gcd;
  frame rate from `r_frame_rate` when that key is present (no fallback on a
  failed parse), else from `avg_frame_rate` when present, else absent; the
  frame-rate text is formatted exactly when the rate is present;
* audio: `s.type = 'audio'`; subtitle: the source never assigns `s.type`;
* any other tag: `s.type` is the tag verbatim. -/
def build_stream (stream : RawStream) : StreamRecord :=
  let s0 : StreamRecord := { index := stream.index }
  match stream.codec_type with
  | none => { s0 with type := some "unknown" }
  | some ct =>
    if ct = "video" then
      let w := stream.width
      let h := stream.height
      { s0 with
        type := some "video"
        width := some w
        height := some h
        dimension := some (w, h)
        dimension_text := some (toString w ++ "x" ++ toString h)
        dar := (stream_dar_pair stream).1
        dar_text := (stream_dar_pair stream).2
        frame_rate := stream_frame_rate stream
        frame_rate_text :=
          match stream_frame_rate stream with
          | some fps => some (frame_rate_text_of fps)
          | none => none }
    else if ct = "audio" then { s0 with type := some "audio" }
    else if ct = "subtitle" then s0
    else { s0 with type := some ct }

/-- Aggregation of container-level fields performed inside the video branch of
`_process_stream`: each field is assigned from the freshly built stream record
only while it is still `None` on `self` (metadata.py lines 329-332, 345-348
and 367-370). Non-video streams leave `self` untouched. -/
def step_agg (self : VideoAgg) (stream : RawStream) : VideoAgg :=
  if stream.codec_type = some "video" then
    let s := build_stream stream
    let self1 :=
      if self.dimension = none then
        { self with dimension := s.dimension, dimension_text := s.dimension_text }
      else self
    let self2 :=
      if self1.dar = none then
        { self1 with dar := s.dar, dar_text := s.dar_text }
      else self1
    let self3 :=
      if self2.frame_rate = none then
        { self2 with frame_rate := s.frame_rate, frame_rate_text := s.frame_rate_text }
      else self2
    self3
  else self

/-- Model of `Video._extract_streams` (metadata.py lines 465-472): process the
raw streams in probe order, returning the aggregated container-level fields
and the list of stream records. Splitting the single source loop into a fold
and a map is faithful because `build_stream` does not depend on `self`. -/
def extract_streams (streams : List RawStream) : VideoAgg × List StreamRecord :=
  (streams.foldl step_agg {}, streams.map build_stream)

/-- Raw video stream with the given index, width, height and optional
`display_aspect_ratio` field (notation helper for concrete probe inputs). -/
def videoRaw (idx w h : Nat) (d : Option String) : RawStream :=
  { index := idx, codec_type := some "video", width := w, height := h,
    dar_str := d }

/-! ### Frame sampling (`StoryBoard.gen_frames`, storyboard.py lines 557-627) -/

/-- Timestamp list computed at storyboard.py lines 606-607:
`interval = duration / count; [interval * (i + 1/2) for i in range(0, count)]`. -/
def sample_timestamps (duration : ℚ) (count : Nat) : List ℚ :=
  let interval := duration / (count : ℚ)
  (List.range count).map fun i : Nat => interval * ((i : ℚ) + 1 / 2)

inductive GenFramesError
  /-- ZeroDivisionError raised by `interval = duration / count` -/
  | zeroDivisionError
deriving Repr, DecidableEq

/-- Model of the state-visible part of `StoryBoard.gen_frames`: each stored
frame is represented by its timestamp. The source returns immediately when
`len(self.frames) == count`; otherwise it computes `interval = duration /
count` (a ZeroDivisionError when `count == 0`), then appends one frame per
timestamp to `self.frames`. Frame extraction itself is the external
collaborator and is modelled as succeeding with the requested timestamp. -/
def gen_frames (frames : List ℚ) (duration : ℚ) (count : Nat) :
    Except GenFramesError (List ℚ) :=
  if frames.length = count then .ok frames
  else if count = 0 then .error .zeroDivisionError
  else .ok (frames ++ sample_timestamps duration count)

/-! ### Tiling (`tile_images`, storyboard.py lines 260-422)

Images are modelled by their pixel sizes `(width, height)`; the composite
canvas is modelled by its size together with the list of paste operations
(size of the pasted raster and its position), which is all the geometric
content of the source. Python's `cols - 1` on the `int` column count is
modelled in `Int`. -/

/-- Data carried by the ValueError messages of `tile_images`, holding exactly
the values the source interpolates into each format string, in source order.
In both mismatch messages the reference image slots are filled with
`ref_index, 0, col, ref_width, ref_height` — including in the height check,
where the literal arguments `0, col` appear in the source (lines 392-394). -/
inductive TileImagesError
  | countMismatch (len cols rows : Nat)
  | widthMismatch (index row col width height ref_index ref_row ref_col
      ref_width ref_height : Nat)
  | heightMismatch (index row col width height ref_index ref_row ref_col
      ref_width ref_height : Nat)
deriving Repr, DecidableEq

/-- Optional parameters of `tile_images` that affect geometry (`canvas_color`
and `close_separate_images` do not). Defaults as in the source. -/
structure TileParams where
  tile_size : Option (Nat × Nat) := none
  tile_spacing : Nat × Nat := (0, 0)
  margins : Nat × Nat := (0, 0)
deriving Repr, DecidableEq

/-- Composite image model: the size passed to `Image.new` and the sequence of
`canvas.paste(img, (x, y))` calls, each recorded as (size of pasted raster,
position). -/
structure Canvas where
  width : Int
  height : Int
  pastes : List ((Nat × Nat) × (Int × Int))
deriving Repr, DecidableEq

/-- List indexing `images[i]`; all accesses below are in range when the image
count equals `cols * rows`, so the default is never relevant. -/
def img (images : List (Nat × Nat)) (i : Nat) : Nat × Nat :=
  images.getD i (0, 0)

/-- Row/column cell of image number `index` in the column-first layout used by
`tile_images` (`index = row * cols + col` with `col < cols`). -/
def grid_position (index cols : Nat) : Nat × Nat :=
  (index / cols, index % cols)

/-- Width-consistency check of `tile_images` (storyboard.py lines 357-376):
for each column, every image below row 0 must match the width of the row-0
image of that column; the first offender raises, carrying
`(index, row, col, width, height, ref_index, 0, col, ref_width, ref_height)`. -/
def check_widths (images : List (Nat × Nat)) (cols rows : Nat) :
    Option TileImagesError :=
  (List.range cols).findSome? fun col =>
    let ref_index := 0 * cols + col
    let ref := img images ref_index
    (List.range' 1 (rows - 1)).findSome? fun row =>
      let index := row * cols + col
      let sz := img images index
      if sz.1 ≠ ref.1 then
        some (.widthMismatch index row col sz.1 sz.2 ref_index 0 col ref.1 ref.2)
      else none

/-- Height-consistency check of `tile_images` (storyboard.py lines 377-396):
for each row, every image beyond column 0 must match the height of the
column-0 image of that row; the first offender raises, carrying
`(index, row, col, width, height, ref_index, 0, col, ref_width, ref_height)`
— the source fills the reference coordinate slots with the literals `0, col`
here as well, although the reference image of the height check sits at
`(row, 0)`. -/
def check_heights (images : List (Nat × Nat)) (cols rows : Nat) :
    Option TileImagesError :=
  (List.range rows).findSome? fun row =>
    let ref_index := row * cols + 0
    let ref := img images ref_index
    (List.range' 1 (cols - 1)).findSome? fun col =>
      let index := row * cols + col
      let sz := img images index
      if sz.2 ≠ ref.2 then
        some (.heightMismatch index row col sz.1 sz.2 ref_index 0 col ref.1 ref.2)
      else none

/-- Assembly loop of `tile_images` (storyboard.py lines 400-416). `y` starts
at the vertical margin; per row, `x` starts at the horizontal margin; the
pasted raster is the image force-resized to `tile_size` when `resize` is set,
the image itself otherwise; after each paste the source advances `x` by
`image.size[0] + hor_spacing` — the ORIGINAL image width, also in resize mode
— and after each row advances `y` by `images[row * cols + 0].size[1] +
ver_spacing`, the original height of the row's first image. -/
def assemble (images : List (Nat × Nat)) (cols rows : Nat) (resize : Bool)
    (tile_size : Nat × Nat) (hor_spacing ver_spacing hor_margin ver_margin : Nat) :
    List ((Nat × Nat) × (Int × Int)) :=
  ((List.range rows).foldl
    (fun (acc : Int × List ((Nat × Nat) × (Int × Int))) row =>
      let inner :=
        (List.range cols).foldl
          (fun (acc2 : Int × List ((Nat × Nat) × (Int × Int))) col =>
            let image := img images (row * cols + col)
            let pasted := if resize then tile_size else image
            (acc2.1 + (image.1 : Int) + (hor_spacing : Int),
             acc2.2 ++ [(pasted, (acc2.1, acc.1))]))
          ((hor_margin : Int), acc.2)
      (acc.1 + ((img images (row * cols + 0)).2 : Int) + (ver_spacing : Int),
       inner.2))
    ((ver_margin : Int), [])).2

/-- Model of `tile_images`: the length precondition, then either the
forced-resize mode (canvas size computed algebraically from the tile size,
no consistency checks) or the strict mode (width then height checks, canvas
size accumulated from the actual reference widths/heights), followed by the
assembly loop. -/
def tile_images (images : List (Nat × Nat)) (tile : Nat × Nat)
    (params : TileParams) : Except TileImagesError Canvas :=
  let cols := tile.1
  let rows := tile.2
  if images.length ≠ cols * rows then
    .error (.countMismatch images.length cols rows)
  else
    let hor_spacing := params.tile_spacing.1
    let ver_spacing := params.tile_spacing.2
    let hor_margin := params.margins.1
    let ver_margin := params.margins.2
    match params.tile_size with
    | some ts =>
      let canvas_width : Int :=
        (ts.1 : Int) * cols + (hor_spacing : Int) * ((cols : Int) - 1) +
          (hor_margin : Int) * 2
      let canvas_height : Int :=
        (ts.2 : Int) * rows + (ver_spacing : Int) * ((rows : Int) - 1) +
          (ver_margin : Int) * 2
      .ok { width := canvas_width, height := canvas_height,
            pastes := assemble images cols rows true ts
              hor_spacing ver_spacing hor_margin ver_margin }
    | none =>
      match check_widths images cols rows with
      | some e => .error e
      | none =>
        match check_heights images cols rows with
        | some e => .error e
        | none =>
          let canvas_width : Int :=
            (hor_spacing : Int) * ((cols : Int) - 1) + (hor_margin : Int) * 2 +
              ((List.range cols).map fun col => ((img images col).1 : Int)).sum
          let canvas_height : Int :=
            (ver_spacing : Int) * ((rows : Int) - 1) + (ver_margin : Int) * 2 +
              ((List.range rows).map fun row =>
                ((img images (row * cols)).2 : Int)).sum
          .ok { width := canvas_width, height := canvas_height,
                pastes := assemble images cols rows false (0, 0)
                  hor_spacing ver_spacing hor_margin ver_margin }

/-! ### `StoryBoard.__init__` calling `metadata.Video` (C3)

Python binds a call's keyword arguments against the callee's parameter list
before the callee body runs; a keyword that matches no parameter raises
TypeError at the call site, so the body — which is what performs the FFprobe
invocation and everything after it — is never entered. That binding step is
modelled here; the body is an arbitrary function so the result demonstrably
cannot depend on it. -/

inductive PyCallError
  /-- TypeError: got an unexpected keyword argument -/
  | unexpectedKeyword (kw : String)
deriving Repr, DecidableEq

/-- Keyword parameters of `Video.__init__` in metadata.py (line 86) besides
the positional `video` argument; the signature is
`def __init__(self, video, ffprobe_bin='ffprobe')` and has no `**kwargs`. -/
def video_init_keywords : List String := ["ffprobe_bin"]

/-- Keyword argument names in the call `metadata.Video(video, params={...})`
made by `StoryBoard.__init__` (storyboard.py lines 434-437); the constructor
options only change the values inside the `params` dict, never the keyword
names of the call. -/
def storyboard_init_video_call_keywords : List String := ["params"]

/-- Python keyword binding for a call to `Video.__init__` with the positional
`video` argument plus the given keywords: the first keyword not among the
accepted parameter names raises TypeError, and only if all bind does the body
(probing and the rest of `__init__`) run. -/
def py_call_video {α : Type} (kwargs : List String) (body : Unit → α) :
    Except PyCallError α :=
  match kwargs.find? (fun k => !(video_init_keywords.contains k)) with
  | some k => .error (.unexpectedKeyword k)
  | none => .ok (body ())

/-! ## Theorems for the claims -/

/-- C1 (counterexample): a video stream whose `display_aspect_ratio` field is
present but does not parse (here `"16-9"`) gets NO computed fallback: both the
DAR value and the DAR text of the resulting stream record are absent, refuting
the claim that a failed parse also triggers the width:height reduction and
that DAR is never absent for a video stream. -/
theorem C1_counterexample :
    (build_stream (videoRaw 0 1920 1080 (some "16-9"))).dar = none
  ∧ (build_stream (videoRaw 0 1920 1080 (some "16-9"))).dar_text = none :=
  ⟨rfl, rfl⟩

/-- C1 (amended): for a raw video stream with positive width and height, the
display aspect ratio is computed by reducing width:height by their gcd ONLY
when the `display_aspect_ratio` field is absent (and then the DAR value and
text are indeed never absent); when the field is present, a successful parse
is adopted verbatim, and a failed parse leaves both the DAR value and the DAR
text absent. -/
theorem C1_dar_of_video_stream (w h idx : Nat) (hw : 0 < w) (hh : 0 < h) :
    ((build_stream (videoRaw idx w h none)).dar
        = some (((w / Nat.gcd w h : Nat) : ℚ) / ((h / Nat.gcd w h : Nat) : ℚ))
      ∧ (build_stream (videoRaw idx w h none)).dar_text
        = some (toString (w / Nat.gcd w h) ++ ":" ++ toString (h / Nat.gcd w h)))
  ∧ (∀ r : String, evaluate_ratio_str r = none →
      (build_stream (videoRaw idx w h (some r))).dar = none
      ∧ (build_stream (videoRaw idx w h (some r))).dar_text = none)
  ∧ (∀ r : String, ∀ q : ℚ, evaluate_ratio_str r = some q →
      (build_stream (videoRaw idx w h (some r))).dar = some q
      ∧ (build_stream (videoRaw idx w h (some r))).dar_text = some r) := by
  refine ⟨⟨rfl, rfl⟩, fun r hr => ⟨?_, ?_⟩, fun r q hr => ⟨?_, ?_⟩⟩
  · rw [show (build_stream (videoRaw idx w h (some r))).dar
        = evaluate_ratio_str r from rfl, hr]
  · rw [show (build_stream (videoRaw idx w h (some r))).dar_text
        = (if (evaluate_ratio_str r).isSome then some r else none) from rfl, hr]
    rfl
  · rw [show (build_stream (videoRaw idx w h (some r))).dar
        = evaluate_ratio_str r from rfl, hr]
  · rw [show (build_stream (videoRaw idx w h (some r))).dar_text
        = (if (evaluate_ratio_str r).isSome then some r else none) from rfl, hr]
    rfl

/-- C1 (witness): the amended theorem applied to a 1920x1080 stream without a
`display_aspect_ratio` field: the computed DAR is 16/9 with text "16:9". -/
theorem C1_witness :
    (build_stream (videoRaw 0 1920 1080 none)).dar = some ((16 : ℚ) / 9)
  ∧ (build_stream (videoRaw 0 1920 1080 none)).dar_text = some "16:9" := by
  have h := (C1_dar_of_video_stream 1920 1080 0 (by norm_num) (by norm_num)).1
  have hg : Nat.gcd 1920 1080 = 120 := by norm_num
  constructor
  · rw [h.1, hg]
    norm_num
  · rw [h.2, hg]
    rfl

/-- C2 (counterexample): for fps = 29.99999 the claim's condition
`|fps - round fps| < 0.0001` holds (rounding to the NEAREST integer gives
30), yet the code produces the two-decimal form "30.00 fps" rather than an
integer form, because the source compares against `int(fps)`, which
truncates. -/
theorem C2_counterexample :
    |(2999999 / 100000 : ℚ) - ((round (2999999 / 100000 : ℚ) : ℤ) : ℚ)| < 1 / 10000
  ∧ frame_rate_text_of (2999999 / 100000 : ℚ) = "30.00 fps"
  ∧ frame_rate_text_of (2999999 / 100000 : ℚ) ≠ "30 fps" := by
  have hround : round (2999999 / 100000 : ℚ) = (30 : ℤ) := by
    rw [round_eq]
    norm_num
  have hpy : pyInt (2999999 / 100000 : ℚ) = (29 : ℤ) := by
    unfold pyInt
    rw [if_pos (by norm_num : (0 : ℚ) ≤ 2999999 / 100000)]
    norm_num [Int.floor_eq_iff]
  have hcond : ¬ |(2999999 / 100000 : ℚ) - ((pyInt (2999999 / 100000 : ℚ) : ℤ) : ℚ)|
      < 1 / 10000 := by
    rw [hpy]
    rw [abs_sub_lt_iff]
    norm_num
  have htext : frame_rate_text_of (2999999 / 100000 : ℚ) = fmt_fixed2 (2999999 / 100000 : ℚ) ++ " fps" := by
    unfold frame_rate_text_of
    rw [if_neg hcond]
  have hfmt : fmt_fixed2 (2999999 / 100000 : ℚ) = "30.00" := by
    unfold fmt_fixed2
    have h100 : round ((2999999 / 100000 : ℚ) * 100) = (3000 : ℤ) := by
      rw [round_eq]
      norm_num
    rw [h100]
    rfl
  refine ⟨?_, ?_, ?_⟩
  · rw [hround, abs_sub_lt_iff]
    norm_num
  · rw [htext, hfmt]
    rfl
  · rw [htext, hfmt]
    decide

/-- C2 (amended): the frame-rate display string is the integer form
`'%d fps' % int(fps)` exactly when `|fps - int(fps)| < 0.0001`, where `int`
is TRUNCATION toward zero (equal to the floor for the nonnegative rates
produced by ratio parsing), and the two-decimal form `"%.2f fps"` otherwise;
the comparison point is not the nearest integer. -/
theorem C2_frame_rate_text (fps : ℚ) (hfps : 0 ≤ fps) :
    pyInt fps = ⌊fps⌋
  ∧ (|fps - (pyInt fps : ℚ)| < 1 / 10000 →
      frame_rate_text_of fps = toString (pyInt fps) ++ " fps")
  ∧ (¬ |fps - (pyInt fps : ℚ)| < 1 / 10000 →
      frame_rate_text_of fps = fmt_fixed2 fps ++ " fps") := by
  refine ⟨by simp [pyInt, hfps], fun h => ?_, fun h => ?_⟩
  · unfold frame_rate_text_of
    rw [if_pos h]
  · unfold frame_rate_text_of
    rw [if_neg h]

/-- C2 (witness): the amended theorem applied at fps = 30 yields the integer
form "30 fps". -/
theorem C2_witness : frame_rate_text_of 30 = "30 fps" := by
  have hp : pyInt (30 : ℚ) = (30 : ℤ) := by
    unfold pyInt
    rw [if_pos (by norm_num : (0 : ℚ) ≤ 30)]
    norm_num
  have h := (C2_frame_rate_text 30 (by norm_num)).2.1 (by rw [hp]; norm_num)
  rw [h, hp]
  rfl

/-- C3 (confirmed): the call `metadata.Video(video, params={...})` made by
`StoryBoard.__init__` passes the keyword `params`, which `Video.__init__`
(accepting only the positional `video` and the keyword `ffprobe_bin`) does
not bind, so Python raises TypeError during argument binding — before the
constructor body, hence before any probing or frame extraction, runs: the
result is the same TypeError for EVERY possible constructor body, independent
of the constructor options. -/
theorem C3_storyboard_init_type_error {α : Type} (body : Unit → α) :
    py_call_video storyboard_init_video_call_keywords body
      = .error (.unexpectedKeyword "params") := by
  rfl

/-- C4 (counterexample): requesting `gen_frames` with count = 0 from the
initial state (empty frames list, as set at instantiation) is a silent no-op:
the early return on `len(self.frames) == count` fires and the division
`duration / count` is never reached, refuting the claim that count = 0 always
fails with a DivideByZero-class error. -/
theorem C4_counterexample : gen_frames [] 100 0 = .ok [] := by
  rfl

/-- C4 (amended): `gen_frames` with count = 0 raises ZeroDivisionError from
the division `duration / count` exactly when the stored frames list is
nonempty; when it is empty — in particular in the initial state — the call
returns silently without reaching the division. -/
theorem C4_gen_frames_zero (frames : List ℚ) (duration : ℚ) :
    gen_frames frames duration 0 =
      if frames = [] then .ok frames else .error .zeroDivisionError := by
  by_cases h : frames = []
  · subst h
    simp [gen_frames]
  · simp [gen_frames, h, List.length_eq_zero]

/-- C5 (code bug, evaluation): with images sized
[(10,5), (20,5), (10,6), (20,5)] in a 2x2 tiling and no tile size, all column
widths agree but row 1 has a height mismatch; the raised error carries, for
the reference image #2, the coordinate values row 0 / col 1 — yet image #2
actually sits at row 1 / col 0 of the column-first layout, so the message
does not identify the reference image's true coordinates as the claim
states. -/
theorem C5_height_mismatch_eval :
    tile_images [(10, 5), (20, 5), (10, 6), (20, 5)] (2, 2) {} =
      .error (.heightMismatch 3 1 1 20 5 2 0 1 10 6)
  ∧ grid_position 2 2 = (1, 0)
  ∧ grid_position 2 2 ≠ (0, 1) := by
  refine ⟨rfl, rfl, by decide⟩

/-- C6 (code bug, evaluation): in forced-resize mode with tile size
(480, 270), spacing (4, 3) and images of original sizes (100,100) and (50,60)
in a 2x1 tiling, the canvas width is computed from the tile size
(964 = 480*2 + 4), but the second resized tile is pasted at x = 104 =
100 + 4: the placement step uses the ORIGINAL image width, not the tile size,
so the accumulated offsets do not match the precomputed canvas size. -/
theorem C6_resize_placement_eval :
    tile_images [(100, 100), (50, 60)] (2, 1)
        { tile_size := some (480, 270), tile_spacing := (4, 3) } =
      .ok { width := 964, height := 270,
            pastes := [((480, 270), (0, 0)), ((480, 270), (104, 0))] }
  ∧ (104 : Int) ≠ 480 + 4 := by
  refine ⟨rfl, by decide⟩
/-- C8 (confirmed): for positive duration and count, the timestamps sampled
by `gen_frames` are exactly the midpoints `(2i+1) * duration / (2 * count)`
of count equal-width intervals, strictly increasing and strictly inside
(0, duration). -/
theorem C8_sample_timestamps (duration : ℚ) (count : Nat)
    (hd : 0 < duration) (hc : 0 < count) :
    sample_timestamps duration count
      = ((List.range count).map fun i : Nat =>
          (2 * (i : ℚ) + 1) * duration / (2 * (count : ℚ)))
  ∧ (sample_timestamps duration count).Pairwise (fun a b => a < b)
  ∧ ∀ t ∈ sample_timestamps duration count, 0 < t ∧ t < duration := by
  have hc' : (0 : ℚ) < (count : ℚ) := by exact_mod_cast hc
  have hc0 : (count : ℚ) ≠ 0 := ne_of_gt hc'
  have hint : (0 : ℚ) < duration / (count : ℚ) := div_pos hd hc'
  refine ⟨?_, ?_, ?_⟩
  · simp only [sample_timestamps]
    refine List.map_congr_left fun i _ => ?_
    field_simp
    ring
  · have hmono : ∀ a b : Nat, a < b →
        duration / (count : ℚ) * ((a : ℚ) + 1 / 2)
          < duration / (count : ℚ) * ((b : ℚ) + 1 / 2) := by
      intro a b hab
      have hab' : (a : ℚ) < (b : ℚ) := by exact_mod_cast hab
      exact mul_lt_mul_of_pos_left (by linarith) hint
    simp only [sample_timestamps]
    exact List.Pairwise.map _ hmono (List.pairwise_lt_range count)
  · intro t ht
    simp only [sample_timestamps] at ht
    rcases List.mem_map.1 ht with ⟨i, hi, rfl⟩
    have hi' : i < count := List.mem_range.1 hi
    have hipos : (0 : ℚ) < (i : ℚ) + 1 / 2 := by positivity
    refine ⟨mul_pos hint hipos, ?_⟩
    have h1 : ((i : ℚ) + 1 / 2) < (count : ℚ) := by
      have h2 : ((i : ℚ) + 1) ≤ (count : ℚ) := by
        exact_mod_cast Nat.succ_le_of_lt hi'
      linarith
    calc duration / (count : ℚ) * ((i : ℚ) + 1 / 2)
        < duration / (count : ℚ) * (count : ℚ) := mul_lt_mul_of_pos_left h1 hint
      _ = duration := div_mul_cancel₀ duration hc0

/-- C8 (witness): duration = 100, count = 4 yields exactly
[12.5, 37.5, 62.5, 87.5], strictly increasing and strictly interior. -/
theorem C8_witness :
    sample_timestamps 100 4 = [(25 : ℚ) / 2, 75 / 2, 125 / 2, 175 / 2]
  ∧ (sample_timestamps 100 4).Pairwise (fun a b => a < b)
  ∧ ∀ t ∈ sample_timestamps 100 4, 0 < t ∧ t < 100 := by
  have h := C8_sample_timestamps 100 4 (by norm_num) (by norm_num)
  refine ⟨?_, h.2.1, h.2.2⟩
  simp only [sample_timestamps]
  rw [show List.range 4 = [0, 1, 2, 3] from rfl]
  simp only [List.map_cons, List.map_nil]
  norm_num

/-- C10 (confirmed): in forced-resize mode with columns m, rows n, tile size
(w, h), spacing (sh, sv) and margins (mh, mv), `tile_images` succeeds on ANY
image list of the right length — no consistency check on the images' own
sizes — and the returned canvas has width w*m + sh*(m-1) + 2*mh and height
h*n + sv*(n-1) + 2*mv exactly, in integer arithmetic. -/
theorem C10_resize_canvas (images : List (Nat × Nat)) (m n w h sh sv mh mv : Nat)
    (hlen : images.length = m * n) (hm : 1 ≤ m) (hn : 1 ≤ n) :
    (tile_images images (m, n)
        { tile_size := some (w, h), tile_spacing := (sh, sv),
          margins := (mh, mv) }).map Canvas.width
      = .ok ((w : Int) * (m : Int) + (sh : Int) * ((m : Int) - 1) + 2 * (mh : Int))
  ∧ (tile_images images (m, n)
        { tile_size := some (w, h), tile_spacing := (sh, sv),
          margins := (mh, mv) }).map Canvas.height
      = .ok ((h : Int) * (n : Int) + (sv : Int) * ((n : Int) - 1) + 2 * (mv : Int)) := by
  unfold tile_images
  simp only [hlen, ne_eq, not_true_eq_false, if_false, Except.map]
  constructor <;> · congr 1; ring

/-- C10 (witness): a 2x2 tiling of four images of scattered sizes with
tileSize = (480, 270), spacing (4, 3) and zero margins yields a canvas of
exactly 964 x 543 = (480*2 + 4) x (270*2 + 3). -/
theorem C10_witness :
    (tile_images [(123, 45), (6, 789), (10, 11), (12, 13)] (2, 2)
        { tile_size := some (480, 270), tile_spacing := (4, 3),
          margins := (0, 0) }).map Canvas.width = .ok 964
  ∧ (tile_images [(123, 45), (6, 789), (10, 11), (12, 13)] (2, 2)
        { tile_size := some (480, 270), tile_spacing := (4, 3),
          margins := (0, 0) }).map Canvas.height = .ok 543 := by
  have h := C10_resize_canvas [(123, 45), (6, 789), (10, 11), (12, 13)]
    2 2 480 270 4 3 0 0 (by decide) (by decide) (by decide)
  exact ⟨by rw [h.1]; norm_num, by rw [h.2]; norm_num⟩

/-- Streams whose `codec_type` is not `"video"` produce records with every
dimension / DAR / frame-rate field absent. -/
theorem build_stream_nonvideo (stream : RawStream)
    (h : ¬ stream.codec_type = some "video") :
    (build_stream stream).dimension = none
  ∧ (build_stream stream).dimension_text = none
  ∧ (build_stream stream).dar = none
  ∧ (build_stream stream).dar_text = none
  ∧ (build_stream stream).frame_rate = none
  ∧ (build_stream stream).frame_rate_text = none := by
  unfold build_stream
  cases hct : stream.codec_type with
  | none => simp
  | some ct =>
    have hv : ¬ ct = "video" := fun hh => h (by rw [hct, hh])
    simp only [hv, if_false]
    split_ifs <;> simp

/-- Non-video streams leave the aggregated container fields untouched
(the aggregation lives inside the video branch of `_process_stream`). -/
theorem step_agg_nonvideo (agg : VideoAgg) (stream : RawStream)
    (h : ¬ stream.codec_type = some "video") :
    step_agg agg stream = agg := by
  unfold step_agg
  rw [if_neg h]

/-- Record produced for a video stream, with every field spelled out. -/
theorem build_stream_video (stream : RawStream)
    (h : stream.codec_type = some "video") :
    build_stream stream =
      { index := stream.index
        type := some "video"
        width := some stream.width
        height := some stream.height
        dimension := some (stream.width, stream.height)
        dimension_text := some (toString stream.width ++ "x" ++ toString stream.height)
        dar := (stream_dar_pair stream).1
        dar_text := (stream_dar_pair stream).2
        frame_rate := stream_frame_rate stream
        frame_rate_text :=
          match stream_frame_rate stream with
          | some fps => some (frame_rate_text_of fps)
          | none => none } := by
  unfold build_stream
  rw [h]
  rfl

/-- DAR value and DAR text of a video stream are absent together: a parsed
value keeps its text, a failed parse drops both, a computed fallback sets
both. -/
theorem stream_dar_pair_absent_iff (stream : RawStream) :
    ((stream_dar_pair stream).1 = none ↔ (stream_dar_pair stream).2 = none) := by
  unfold stream_dar_pair
  cases stream.dar_str with
  | none => simp
  | some r => cases he : evaluate_ratio_str r <;> simp [he]

/-- Each of the three aggregated field pairs of a stream record is absent on
the value side exactly when it is absent on the text side. -/
theorem build_stream_absent_iff (stream : RawStream) :
    ((build_stream stream).dimension = none ↔ (build_stream stream).dimension_text = none)
  ∧ ((build_stream stream).dar = none ↔ (build_stream stream).dar_text = none)
  ∧ ((build_stream stream).frame_rate = none ↔ (build_stream stream).frame_rate_text = none) := by
  by_cases hv : stream.codec_type = some "video"
  · rw [build_stream_video stream hv]
    refine ⟨by simp, by simpa using stream_dar_pair_absent_iff stream, ?_⟩
    cases hf : stream_frame_rate stream <;> simp [hf]
  · obtain ⟨h1, h2, h3, h4, h5, h6⟩ := build_stream_nonvideo stream hv
    rw [h1, h2, h3, h4, h5, h6]
    simp

/-- Effect of one video stream on the aggregated container fields: each field
pair is adopted from the stream record exactly while the value side is still
absent on the aggregate. -/
theorem step_agg_video_fields (agg : VideoAgg) (stream : RawStream)
    (h : stream.codec_type = some "video") :
    (step_agg agg stream).dimension
        = (if agg.dimension = none then (build_stream stream).dimension else agg.dimension)
  ∧ (step_agg agg stream).dimension_text
        = (if agg.dimension = none then (build_stream stream).dimension_text else agg.dimension_text)
  ∧ (step_agg agg stream).dar
        = (if agg.dar = none then (build_stream stream).dar else agg.dar)
  ∧ (step_agg agg stream).dar_text
        = (if agg.dar = none then (build_stream stream).dar_text else agg.dar_text)
  ∧ (step_agg agg stream).frame_rate
        = (if agg.frame_rate = none then (build_stream stream).frame_rate else agg.frame_rate)
  ∧ (step_agg agg stream).frame_rate_text
        = (if agg.frame_rate = none then (build_stream stream).frame_rate_text else agg.frame_rate_text) := by
  unfold step_agg
  rw [if_pos h]
  by_cases h1 : agg.dimension = none <;> by_cases h2 : agg.dar = none <;>
    by_cases h3 : agg.frame_rate = none <;>
      simp [h1, h2, h3]
/-- Fold characterization of the aggregated dimension pair: starting from an
aggregate whose dimension value and text are absent together, folding the
streams sets each side to the first present value among the produced stream
records and never overwrites it afterwards. -/
theorem foldl_dimension (l : List RawStream) :
    ∀ agg : VideoAgg, (agg.dimension = none ↔ agg.dimension_text = none) →
      ((l.foldl step_agg agg).dimension
          = if agg.dimension = none
            then l.findSome? fun raw => (build_stream raw).dimension
            else agg.dimension)
      ∧ ((l.foldl step_agg agg).dimension_text
          = if agg.dimension_text = none
            then l.findSome? fun raw => (build_stream raw).dimension_text
            else agg.dimension_text) := by
  induction l with
  | nil =>
    intro agg hinv
    refine ⟨?_, ?_⟩
    · rcases h : agg.dimension with _ | v <;> simp [h]
    · rcases h : agg.dimension_text with _ | v <;> simp [h]
  | cons raw rest ih =>
    intro agg hinv
    rw [List.foldl_cons]
    by_cases hv : raw.codec_type = some "video"
    · obtain ⟨hd, hdt, -, -, -, -⟩ := step_agg_video_fields agg raw hv
      have hinv' : (step_agg agg raw).dimension = none ↔
          (step_agg agg raw).dimension_text = none := by
        rw [hd, hdt]
        rcases h : agg.dimension with _ | v
        · have ht : agg.dimension_text = none := hinv.1 h
          simpa [h, ht] using (build_stream_absent_iff raw).1
        · have ht : ¬ agg.dimension_text = none := fun hh => by
            rw [hinv.2 hh] at h; cases h
          simp [h, ht]
      obtain ⟨h1, h2⟩ := ih (step_agg agg raw) hinv'
      constructor
      · rw [h1, hd]
        rcases h : agg.dimension with _ | v
        · rcases hb : (build_stream raw).dimension with _ | d <;>
            simp [h, hb, List.findSome?_cons]
        · simp [h]
      · rw [h2, hdt]
        rcases h : agg.dimension with _ | v
        · have ht : agg.dimension_text = none := hinv.1 h
          rcases hb : (build_stream raw).dimension_text with _ | d <;>
            simp [h, ht, hb, List.findSome?_cons]
        · rcases ht' : agg.dimension_text with _ | t
          · rw [hinv.2 ht'] at h; cases h
          · simp [h, ht']
    · rw [step_agg_nonvideo agg raw hv]
      obtain ⟨hb1, hb2, -, -, -, -⟩ := build_stream_nonvideo raw hv
      obtain ⟨h1, h2⟩ := ih agg hinv
      constructor
      · rw [h1]
        rcases h : agg.dimension with _ | v <;>
          simp [h, hb1, List.findSome?_cons]
      · rw [h2]
        rcases h : agg.dimension_text with _ | v <;>
          simp [h, hb2, List.findSome?_cons]

/-- Fold characterization of the aggregated DAR pair, as for the dimension
pair; both sides of the pair are guarded by the VALUE side being absent on
the aggregate, mirroring `if self.dar is None` in the source. -/
theorem foldl_dar (l : List RawStream) :
    ∀ agg : VideoAgg, (agg.dar = none ↔ agg.dar_text = none) →
      ((l.foldl step_agg agg).dar
          = if agg.dar = none
            then l.findSome? fun raw => (build_stream raw).dar
            else agg.dar)
      ∧ ((l.foldl step_agg agg).dar_text
          = if agg.dar_text = none
            then l.findSome? fun raw => (build_stream raw).dar_text
            else agg.dar_text) := by
  induction l with
  | nil =>
    intro agg hinv
    refine ⟨?_, ?_⟩
    · rcases h : agg.dar with _ | v <;> simp [h]
    · rcases h : agg.dar_text with _ | v <;> simp [h]
  | cons raw rest ih =>
    intro agg hinv
    rw [List.foldl_cons]
    by_cases hv : raw.codec_type = some "video"
    · obtain ⟨-, -, hd, hdt, -, -⟩ := step_agg_video_fields agg raw hv
      have hinv' : (step_agg agg raw).dar = none ↔
          (step_agg agg raw).dar_text = none := by
        rw [hd, hdt]
        rcases h : agg.dar with _ | v
        · have ht : agg.dar_text = none := hinv.1 h
          simpa [h, ht] using (build_stream_absent_iff raw).2.1
        · have ht : ¬ agg.dar_text = none := fun hh => by
            rw [hinv.2 hh] at h; cases h
          simp [h, ht]
      obtain ⟨h1, h2⟩ := ih (step_agg agg raw) hinv'
      constructor
      · rw [h1, hd]
        rcases h : agg.dar with _ | v
        · rcases hb : (build_stream raw).dar with _ | d <;>
            simp [h, hb, List.findSome?_cons]
        · simp [h]
      · rw [h2, hdt]
        rcases h : agg.dar with _ | v
        · have ht : agg.dar_text = none := hinv.1 h
          rcases hb : (build_stream raw).dar_text with _ | d <;>
            simp [h, ht, hb, List.findSome?_cons]
        · rcases ht' : agg.dar_text with _ | t
          · rw [hinv.2 ht'] at h; cases h
          · simp [h, ht']
    · rw [step_agg_nonvideo agg raw hv]
      obtain ⟨-, -, hb1, hb2, -, -⟩ := build_stream_nonvideo raw hv
      obtain ⟨h1, h2⟩ := ih agg hinv
      constructor
      · rw [h1]
        rcases h : agg.dar with _ | v <;>
          simp [h, hb1, List.findSome?_cons]
      · rw [h2]
        rcases h : agg.dar_text with _ | v <;>
          simp [h, hb2, List.findSome?_cons]

/-- Fold characterization of the aggregated frame-rate pair, as for the DAR
pair (both sides guarded by `if self.frame_rate is None` in the source). -/
theorem foldl_frame_rate (l : List RawStream) :
    ∀ agg : VideoAgg, (agg.frame_rate = none ↔ agg.frame_rate_text = none) →
      ((l.foldl step_agg agg).frame_rate
          = if agg.frame_rate = none
            then l.findSome? fun raw => (build_stream raw).frame_rate
            else agg.frame_rate)
      ∧ ((l.foldl step_agg agg).frame_rate_text
          = if agg.frame_rate_text = none
            then l.findSome? fun raw => (build_stream raw).frame_rate_text
            else agg.frame_rate_text) := by
  induction l with
  | nil =>
    intro agg hinv
    refine ⟨?_, ?_⟩
    · rcases h : agg.frame_rate with _ | v <;> simp [h]
    · rcases h : agg.frame_rate_text with _ | v <;> simp [h]
  | cons raw rest ih =>
    intro agg hinv
    rw [List.foldl_cons]
    by_cases hv : raw.codec_type = some "video"
    · obtain ⟨-, -, -, -, hd, hdt⟩ := step_agg_video_fields agg raw hv
      have hinv' : (step_agg agg raw).frame_rate = none ↔
          (step_agg agg raw).frame_rate_text = none := by
        rw [hd, hdt]
        rcases h : agg.frame_rate with _ | v
        · have ht : agg.frame_rate_text = none := hinv.1 h
          simpa [h, ht] using (build_stream_absent_iff raw).2.2
        · have ht : ¬ agg.frame_rate_text = none := fun hh => by
            rw [hinv.2 hh] at h; cases h
          simp [h, ht]
      obtain ⟨h1, h2⟩ := ih (step_agg agg raw) hinv'
      constructor
      · rw [h1, hd]
        rcases h : agg.frame_rate with _ | v
        · rcases hb : (build_stream raw).frame_rate with _ | d <;>
            simp [h, hb, List.findSome?_cons]
        · simp [h]
      · rw [h2, hdt]
        rcases h : agg.frame_rate with _ | v
        · have ht : agg.frame_rate_text = none := hinv.1 h
          rcases hb : (build_stream raw).frame_rate_text with _ | d <;>
            simp [h, ht, hb, List.findSome?_cons]
        · rcases ht' : agg.frame_rate_text with _ | t
          · rw [hinv.2 ht'] at h; cases h
          · simp [h, ht']
    · rw [step_agg_nonvideo agg raw hv]
      obtain ⟨-, -, -, -, hb1, hb2⟩ := build_stream_nonvideo raw hv
      obtain ⟨h1, h2⟩ := ih agg hinv
      constructor
      · rw [h1]
        rcases h : agg.frame_rate with _ | v <;>
          simp [h, hb1, List.findSome?_cons]
      · rw [h2]
        rcases h : agg.frame_rate_text with _ | v <;>
          simp [h, hb2, List.findSome?_cons]

/-- C7 (counterexample): with a first video stream whose
`display_aspect_ratio` field is present but malformed (so its record's DAR is
absent) followed by a second video stream without the field, the container
DAR ends up present — adopted from the SECOND stream — while the first video
stream's DAR is absent, refuting the claim that the container value always
equals the first video stream's and is set exactly once from it. -/
theorem C7_counterexample :
    ((extract_streams
        [videoRaw 0 1920 1080 (some "16-9"), videoRaw 1 4 3 none]).1.dar).isSome = true
  ∧ ((extract_streams
        [videoRaw 0 1920 1080 (some "16-9"), videoRaw 1 4 3 none]).2.find?
          fun s => s.type == some "video").map StreamRecord.dar = some none :=
  ⟨rfl, rfl⟩

/-- C7 (amended): each aggregated container-level field (dimension, DAR,
frame rate, values and display texts) equals the value of the FIRST stream
record that carries that field non-absent — only video streams carry them, so
dimension always mirrors the first video stream, while DAR and frame rate
mirror the first video stream on which they are present, which can be a later
one when the first video stream's value is absent; once present the container
fields are never overwritten, and they remain absent when no video stream
provides a value. -/
theorem C7_container_mirrors_first_present (l : List RawStream) :
    (extract_streams l).1.dimension
        = (extract_streams l).2.findSome? StreamRecord.dimension
  ∧ (extract_streams l).1.dimension_text
        = (extract_streams l).2.findSome? StreamRecord.dimension_text
  ∧ (extract_streams l).1.dar
        = (extract_streams l).2.findSome? StreamRecord.dar
  ∧ (extract_streams l).1.dar_text
        = (extract_streams l).2.findSome? StreamRecord.dar_text
  ∧ (extract_streams l).1.frame_rate
        = (extract_streams l).2.findSome? StreamRecord.frame_rate
  ∧ (extract_streams l).1.frame_rate_text
        = (extract_streams l).2.findSome? StreamRecord.frame_rate_text := by
  have hdim := foldl_dimension l {} (by simp)
  have hdar := foldl_dar l {} (by simp)
  have hfr := foldl_frame_rate l {} (by simp)
  refine ⟨?_, ?_, ?_, ?_, ?_, ?_⟩ <;>
    simp only [extract_streams, List.findSome?_map]
  · rw [hdim.1]; rfl
  · rw [hdim.2]; rfl
  · rw [hdar.1]; rfl
  · rw [hdar.2]; rfl
  · rw [hfr.1]; rfl
  · rw [hfr.2]; rfl

/-- Evaluation rule for the two-decimal format given the rounded numerator. -/
theorem fmt_fixed2_eval (q : ℚ) (m : ℤ) (h : round (q * 100) = m) :
    fmt_fixed2 q = toString (m / 100) ++ "." ++ pad2 (m % 100).toNat := by
  unfold fmt_fixed2
  rw [h]

/-- Evaluation rule for the one-decimal format given the rounded numerator. -/
theorem fmt_fixed1_eval (q : ℚ) (m : ℤ) (h : round (q * 10) = m) :
    fmt_fixed1 q = toString (m / 10) ++ "." ++ toString (m % 10).toNat := by
  unfold fmt_fixed1
  rw [h]

/-- Composition of two divisions by 1024 into one power step. -/
theorem div_1024_pow (size : ℚ) (m : Nat) :
    size / 1024 / 1024 ^ m = size / 1024 ^ (m + 1) := by
  rw [div_div, ← pow_succ']

/-- Comparison of a loop quotient with 1024, transported to the integers. -/
theorem q_div_pow_lt (n j : Nat) :
    ((n : ℚ) / 1024 ^ j < 1024) ↔ n < 1024 ^ (j + 1) := by
  rw [div_lt_iff₀ (by positivity)]
  have h : (1024 : ℚ) * 1024 ^ j = ((1024 ^ (j + 1) : Nat) : ℚ) := by
    push_cast
    rw [pow_succ']
  rw [h]
  exact_mod_cast Iff.rfl

/-- Stopping step of the size loop: once the quotient drops below 1024 the
current unit is selected and formatted with two decimals below magnitude 10
and one decimal otherwise. -/
theorem size_human_loop_stop (size : ℚ) (unit : String) (rest : List String)
    (h : size / 1024 < 1024) :
    size_human_loop size (unit :: rest)
      = (if size / 1024 < 10 then
          fmt_fixed2 (round_up (size / 1024) 2) ++ unit ++ "B"
         else fmt_fixed1 (round_up (size / 1024) 1) ++ unit ++ "B") := by
  simp only [size_human_loop]
  rw [if_pos h]

/-- Continuation step of the size loop: a quotient still at or above 1024
moves on to the next unit. -/
theorem size_human_loop_cont (size : ℚ) (u1 u2 : String) (rest : List String)
    (h : ¬ size / 1024 < 1024) :
    size_human_loop size (u1 :: u2 :: rest)
      = size_human_loop (size / 1024) (u2 :: rest) := by
  simp only [size_human_loop]
  rw [if_neg h]

/-- Exhaustion step of the size loop (the `for`-`else` clause): at the last
unit a quotient still at or above 1024 is formatted with one decimal in that
unit, with no further escalation. -/
theorem size_human_loop_last (size : ℚ) (unit : String)
    (h : ¬ size / 1024 < 1024) :
    size_human_loop size [unit] = fmt_fixed1 (round_up (size / 1024) 1) ++ unit ++ "B" := by
  simp only [size_human_loop]
  rw [if_neg h]

/-- Unit selection of the size loop: if the first k quotients stay at or
above 1024 and the (k+1)-st drops below, the loop stops at unit index k with
magnitude `size / 1024 ^ (k + 1)`. -/
theorem size_human_loop_index :
    ∀ (us : List String) (k : Nat) (size : ℚ), k + 1 ≤ us.length →
      (∀ j : Nat, j < k → ¬ size / 1024 ^ (j + 1) < 1024) →
      size / 1024 ^ (k + 1) < 1024 →
      size_human_loop size us
        = (if size / 1024 ^ (k + 1) < 10 then
            fmt_fixed2 (round_up (size / 1024 ^ (k + 1)) 2) ++ us.getD k "" ++ "B"
           else
            fmt_fixed1 (round_up (size / 1024 ^ (k + 1)) 1) ++ us.getD k "" ++ "B") := by
  intro us
  induction us with
  | nil =>
    intro k size hk _ _
    exact absurd hk (by simp)
  | cons u rest ih =>
    intro k size hk hcont hstop
    cases k with
    | zero =>
      have h1 : size / 1024 < 1024 := by rwa [zero_add, pow_one] at hstop
      rw [size_human_loop_stop size u rest h1]
      simp [pow_one]
    | succ k' =>
      cases rest with
      | nil =>
        exfalso
        simp only [List.length_cons, List.length_nil] at hk
        omega
      | cons u2 rest' =>
        have hc : ¬ size / 1024 < 1024 := by
          have h0 := hcont 0 (Nat.succ_pos k')
          rwa [zero_add, pow_one] at h0
        rw [size_human_loop_cont size u u2 rest' hc]
        have hk' : k' + 1 ≤ (u2 :: rest').length := by
          simp only [List.length_cons] at hk ⊢
          omega
        have hcont' : ∀ j : Nat, j < k' → ¬ (size / 1024) / 1024 ^ (j + 1) < 1024 := by
          intro j hj
          rw [div_1024_pow]
          exact hcont (j + 1) (by omega)
        have hstop' : (size / 1024) / 1024 ^ (k' + 1) < 1024 := by
          rw [div_1024_pow]
          exact hstop
        rw [ih k' (size / 1024) hk' hcont' hstop']
        rw [div_1024_pow]
        simp [List.getD_cons_succ]

/-- Exhaustion of the size loop: if every quotient down to the last unit
stays at or above 1024, the loop formats with one decimal in the last unit,
at magnitude `size / 1024 ^ length` (which is itself at or above 1024). -/
theorem size_human_loop_cap :
    ∀ (us : List String) (size : ℚ) (u : String),
      (∀ j : Nat, 1 ≤ j → j ≤ (u :: us).length → ¬ size / 1024 ^ j < 1024) →
      size_human_loop size (u :: us)
        = fmt_fixed1 (round_up (size / 1024 ^ (u :: us).length) 1)
            ++ (u :: us).getD us.length "" ++ "B" := by
  intro us
  induction us with
  | nil =>
    intro size u hcont
    have h1 : ¬ size / 1024 < 1024 := by
      have h0 := hcont 1 (le_refl 1) (by simp)
      rwa [pow_one] at h0
    rw [size_human_loop_last size u h1]
    simp [pow_one]
  | cons u2 rest ih =>
    intro size u hcont
    have h1 : ¬ size / 1024 < 1024 := by
      have h0 := hcont 1 (le_refl 1) (by simp)
      rwa [pow_one] at h0
    rw [size_human_loop_cont size u u2 rest h1]
    have hcont' : ∀ j : Nat, 1 ≤ j → j ≤ (u2 :: rest).length →
        ¬ (size / 1024) / 1024 ^ j < 1024 := by
      intro j h1j h2j
      rw [div_1024_pow]
      refine hcont (j + 1) (by omega) ?_
      simp only [List.length_cons] at h2j ⊢
      omega
    rw [ih (size / 1024) u2 hcont']
    rw [div_1024_pow]
    simp [List.getD_cons_succ]
/-- C9 (confirmed): the size string maps 0 to "0B", 1023 to "1023B", 1024 to
"1.00KiB" and 1536 to "1.50KiB"; in general the binary unit is selected by
repeated division by 1024 while the pre-rounding quotient is at least 1024
(for 1024^k ≤ n < 1024^(k+1) with 1 ≤ k ≤ 7, unit k is used at magnitude
n / 1024^k, rounded up to two decimals below 10 and to one decimal
otherwise), and the loop never escalates past Zi: every n ≥ 1024^8 is shown
in Zi with one decimal even though the magnitude there is at least 1024. -/
theorem C9_size_human :
    (size_human 0 = "0B" ∧ size_human 1023 = "1023B"
      ∧ size_human 1024 = "1.00KiB" ∧ size_human 1536 = "1.50KiB")
  ∧ (∀ n k : Nat, 1 ≤ k → k ≤ 7 → 1024 ^ k ≤ n → n < 1024 ^ (k + 1) →
      size_human n
        = (if (n : ℚ) / 1024 ^ k < 10 then
            fmt_fixed2 (round_up ((n : ℚ) / 1024 ^ k) 2)
              ++ size_units.getD (k - 1) "" ++ "B"
           else
            fmt_fixed1 (round_up ((n : ℚ) / 1024 ^ k) 1)
              ++ size_units.getD (k - 1) "" ++ "B"))
  ∧ (∀ n : Nat, 1024 ^ 8 ≤ n →
      size_human n = fmt_fixed1 (round_up ((n : ℚ) / 1024 ^ 7) 1) ++ "Zi" ++ "B") := by
  have hgen : ∀ n k : Nat, 1 ≤ k → k ≤ 7 → 1024 ^ k ≤ n → n < 1024 ^ (k + 1) →
      size_human n
        = (if (n : ℚ) / 1024 ^ k < 10 then
            fmt_fixed2 (round_up ((n : ℚ) / 1024 ^ k) 2)
              ++ size_units.getD (k - 1) "" ++ "B"
           else
            fmt_fixed1 (round_up ((n : ℚ) / 1024 ^ k) 1)
              ++ size_units.getD (k - 1) "" ++ "B") := by
    intro n k hk1 hk7 hlo hhi
    have hk' : (k - 1) + 1 = k := Nat.succ_pred_eq_of_pos hk1
    have hbig : (1024 : Nat) ≤ n := by
      calc (1024 : Nat) = 1024 ^ 1 := (pow_one 1024).symm
        _ ≤ 1024 ^ k := Nat.pow_le_pow_right (by norm_num) hk1
        _ ≤ n := hlo
    have hn1024 : ¬ ((n : Nat) : ℚ) < 1024 := by
      rw [not_lt]
      exact_mod_cast hbig
    have hlen : (k - 1) + 1 ≤ size_units.length := by
      rw [hk']
      simpa [size_units] using hk7
    have hcont : ∀ j : Nat, j < k - 1 → ¬ ((n : Nat) : ℚ) / 1024 ^ (j + 1) < 1024 := by
      intro j hj
      rw [q_div_pow_lt, not_lt]
      calc (1024 : Nat) ^ (j + 1 + 1) ≤ 1024 ^ k :=
            Nat.pow_le_pow_right (by norm_num) (by omega)
        _ ≤ n := hlo
    have hstop : ((n : Nat) : ℚ) / 1024 ^ ((k - 1) + 1) < 1024 := by
      rw [hk', q_div_pow_lt]
      exact hhi
    have hidx := size_human_loop_index size_units (k - 1) ((n : Nat) : ℚ)
      hlen hcont hstop
    rw [hk'] at hidx
    unfold size_human
    rw [if_neg hn1024]
    exact hidx
  have hcap : ∀ n : Nat, 1024 ^ 8 ≤ n →
      size_human n = fmt_fixed1 (round_up ((n : ℚ) / 1024 ^ 7) 1) ++ "Zi" ++ "B" := by
    intro n h8
    have hbig : (1024 : Nat) ≤ n := le_trans (by norm_num) h8
    have hn1024 : ¬ ((n : Nat) : ℚ) < 1024 := by
      rw [not_lt]
      exact_mod_cast hbig
    have hcond : ∀ j : Nat, 1 ≤ j →
        j ≤ ("Ki" :: ["Mi", "Gi", "Ti", "Pi", "Ei", "Zi"]).length →
        ¬ ((n : Nat) : ℚ) / 1024 ^ j < 1024 := by
      intro j h1j h2j
      simp only [List.length_cons, List.length_nil] at h2j
      rw [q_div_pow_lt, not_lt]
      calc (1024 : Nat) ^ (j + 1) ≤ 1024 ^ 8 :=
            Nat.pow_le_pow_right (by norm_num) (by omega)
        _ ≤ n := h8
    have hc := size_human_loop_cap ["Mi", "Gi", "Ti", "Pi", "Ei", "Zi"]
      ((n : Nat) : ℚ) "Ki" hcond
    unfold size_human
    rw [if_neg hn1024]
    rw [show size_units = "Ki" :: ["Mi", "Gi", "Ti", "Pi", "Ei", "Zi"] from rfl]
    rw [hc]
    rfl
  refine ⟨⟨?_, ?_, ?_, ?_⟩, hgen, hcap⟩
  · unfold size_human
    rw [if_pos (by norm_num : ((0 : Nat) : ℚ) < 1024)]
    rfl
  · unfold size_human
    rw [if_pos (by norm_num : ((1023 : Nat) : ℚ) < 1024)]
    rfl
  · rw [hgen 1024 1 (by norm_num) (by norm_num) (by norm_num) (by norm_num)]
    have e1 : ((1024 : Nat) : ℚ) / 1024 ^ 1 = 1 := by norm_num
    rw [e1, if_pos (by norm_num : (1 : ℚ) < 10)]
    have e2 : round_up (1 : ℚ) 2 = 1 := by
      unfold round_up
      norm_num
    rw [e2, fmt_fixed2_eval (1 : ℚ) 100 (by rw [round_eq]; norm_num)]
    rfl
  · rw [hgen 1536 1 (by norm_num) (by norm_num) (by norm_num) (by norm_num)]
    have e1 : ((1536 : Nat) : ℚ) / 1024 ^ 1 = 3 / 2 := by norm_num
    rw [e1, if_pos (by norm_num : (3 / 2 : ℚ) < 10)]
    have e2 : round_up (3 / 2 : ℚ) 2 = 3 / 2 := by
      unfold round_up
      norm_num
    rw [e2, fmt_fixed2_eval (3 / 2 : ℚ) 150 (by rw [round_eq]; norm_num)]
    rfl

/-- C9 (witness): the general clauses applied at 1 MiB (unit k = 2, magnitude
1, two decimals) and at 1024^8 bytes (Zi cap, magnitude 1024, one decimal). -/
theorem C9_witness :
    size_human 1048576 = "1.00MiB" ∧ size_human (1024 ^ 8) = "1024.0ZiB" := by
  constructor
  · rw [C9_size_human.2.1 1048576 2 (by norm_num) (by norm_num) (by norm_num)
      (by norm_num)]
    have e1 : ((1048576 : Nat) : ℚ) / 1024 ^ 2 = 1 := by norm_num
    rw [e1, if_pos (by norm_num : (1 : ℚ) < 10)]
    have e2 : round_up (1 : ℚ) 2 = 1 := by
      unfold round_up
      norm_num
    rw [e2, fmt_fixed2_eval (1 : ℚ) 100 (by rw [round_eq]; norm_num)]
    rfl
  · rw [C9_size_human.2.2 (1024 ^ 8) (by norm_num)]
    have e1 : (((1024 ^ 8 : Nat) : Nat) : ℚ) / 1024 ^ 7 = 1024 := by
      push_cast
      norm_num
    rw [e1]
    have e2 : round_up (1024 : ℚ) 1 = 1024 := by
      unfold round_up
      norm_num
    rw [e2, fmt_fixed1_eval (1024 : ℚ) 10240 (by rw [round_eq]; norm_num)]
    rfl

end Storyboard
